import Mathlib

/-!
Verification of the decode-and-account engine of `src/src/oatdump.cc`
(the ART oat/image dumper): a shallow embedding of `OatDump`, `ImageDump`,
its `Stats` accumulator and visit callback, and theorems about the
claims of the specification.

`CHECK`/`DCHECK` assertions are modelled as fatal: a function whose body
contains one returns `Option`, with `none` meaning the process terminated
on a failed internal-consistency check.
-/

namespace Oatdump

/-- Modelled from the spec: the object alignment constant `ALIGNMENT`
(`kObjectAlignment` in the source's runtime headers, which are outside
this repository snapshot). Its concrete value is not used by any claim. -/
def kObjectAlignment : Nat := 8

/-- Modelled from the spec: `RoundUp(size, ALIGNMENT)` from the runtime's
utility header (outside this repository snapshot): the least multiple of
`n` that is not below `x`, for `n > 0`. -/
def RoundUp (x n : Nat) : Nat := ((x + n - 1) / n) * n

/-- `std::map<std::string, size_t>` modelled as an association list;
`operator[] += v` keeps the first occurrence of a key and appends fresh
keys at the end. -/
abbrev Table := List (String × Nat)

/-- `m[k] += v` where a missing key is first created with value 0. -/
def tableAdd (m : Table) (k : String) (v : Nat) : Table :=
  match m with
  | [] => [(k, v)]
  | (k0, v0) :: rest =>
    if k0 = k then (k0, v0 + v) :: rest else (k0, v0) :: tableAdd rest k v

/-- Read `m[k]` with default 0 (the value `operator[]` default-constructs). -/
def tableGetD (m : Table) (k : String) : Nat :=
  match m with
  | [] => 0
  | (k0, v0) :: rest => if k0 = k then v0 else tableGetD rest k

/-- The key list of the map, in storage order. -/
def tableKeys (m : Table) : List String := m.map Prod.fst

/-- Sum of all values of the map (the loop in `Stats::Dump` that folds
`it->second` into `object_bytes_total`). -/
def tableSum (m : Table) : Nat := (m.map Prod.snd).sum

/-- `ImageDump::Stats` (source lines 401-433): the accumulator of the
heap-snapshot traversal. All fields are zero-initialised by the
constructor. -/
structure Stats where
  file_bytes : Nat := 0
  header_bytes : Nat := 0
  object_bytes : Nat := 0
  alignment_bytes : Nat := 0
  managed_code_bytes : Nat := 0
  managed_to_native_code_bytes : Nat := 0
  native_to_managed_code_bytes : Nat := 0
  register_map_bytes : Nat := 0
  pc_mapping_table_bytes : Nat := 0
  dex_instruction_bytes : Nat := 0
  descriptor_to_bytes : Table := []
  descriptor_to_count : Table := []
deriving DecidableEq

/-- The freshly constructed accumulator (`Stats()`). -/
def Stats.init : Stats := {}

/-- Modelled from the spec: the `Method` accessors of the runtime object
model (outside this repository snapshot) that `ImageDump::Callback` reads:
execution-kind flags, the register/GC map and mapping-table side tables
(null-ness and byte length), the code and invoke-stub pointers, and the
owning code item's instruction-unit count. Pointers are plain numbers. -/
structure MethodRef where
  code : Nat
  invokeStub : Nat
  isNative : Bool
  isRegistered : Bool
  nativeMethod : Nat
  isAbstract : Bool
  isCalleeSaveMethod : Bool
  gcMapIsNull : Bool
  gcMapLength : Nat
  mappingTableIsNull : Bool
  mappingTableLength : Nat
  insnsSizeInCodeUnits : Nat
  pretty : String
deriving DecidableEq

/-- Modelled from the spec: one live heap object as seen through the
runtime object model's capability accessors (outside this repository
snapshot): address, `SizeOf`, the `Is...` capability checks applied by the
classifier, the descriptor of the object's own class, and the
category-specific detail the dumper renders. `asMethod` is `some` exactly
when `IsMethod()` holds. -/
structure HeapObject where
  addr : Nat
  sizeOf : Nat
  isClass : Bool
  ownDescriptor : String
  statusStr : String
  asMethod : Option MethodRef
  isField : Bool
  fieldPretty : String
  isArrayInstance : Bool
  arrayLength : Nat
  classIsStringClass : Bool
  stringUtf8 : String
  classDescriptor : String
deriving DecidableEq

/-- `obj->IsMethod()`. -/
def HeapObject.isMethod (obj : HeapObject) : Bool := obj.asMethod.isSome

/-- Modelled from the spec: the designated target memory region backing
the heap-snapshot (the image `Space`, outside this repository snapshot),
with containment as an address-range check. -/
structure Space where
  spaceBegin : Nat
  spaceEnd : Nat
deriving DecidableEq

/-- `Space::Contains(object)`. -/
def Space.Contains (s : Space) (obj : HeapObject) : Bool :=
  decide (s.spaceBegin ≤ obj.addr ∧ obj.addr < s.spaceEnd)

/-- `ImageDump::InDumpSpace` (source lines 396-398). -/
def InDumpSpace (dumpSpace : Space) (obj : HeapObject) : Bool :=
  dumpSpace.Contains obj

/-- The mutually exclusive top-level categories the classifier assigns. -/
inductive Category where
  | classK
  | methodK
  | fieldK
  | arrayK
  | stringK
  | objectK
deriving DecidableEq

/-- The classifier chain of `ImageDump::Callback` (source lines 318-337):
`IsClass`, else `IsMethod`, else `IsField`, else `IsArrayInstance`, else
`GetClass()->IsStringClass()`, else plain object. -/
def classifyObject (obj : HeapObject) : Category :=
  if obj.isClass then .classK
  else if obj.isMethod then .methodK
  else if obj.isField then .fieldK
  else if obj.isArrayInstance then .arrayK
  else if obj.classIsStringClass then .stringK
  else .objectK

/-- The same capability checks as an explicit precedence list, written
from the spec's words for the refinement theorem: category checks in the
stated order, first match wins, else plain object. -/
def categoryChecks (obj : HeapObject) : List (Bool × Category) :=
  [(obj.isClass, .classK), (obj.isMethod, .methodK), (obj.isField, .fieldK),
   (obj.isArrayInstance, .arrayK), (obj.classIsStringClass, .stringK)]

/-- Spec-side classifier: the first check of `categoryChecks` that holds
wins; when none holds the object is plain. -/
def firstMatchCategory (obj : HeapObject) : Category :=
  match (categoryChecks obj).find? (fun c => c.1) with
  | some c => c.2
  | none => .objectK

/-- `ImageDump::Callback` (source lines 303-394). The output stream is a
list of appended strings; each `StringAppendF` of the source contributes
one summary piece (format skeleton plus the modelled values). A failed
`DCHECK` is `none` (fatal). -/
def Callback (dumpSpace : Space) (stats : Stats) (outStream : List String)
    (obj : HeapObject) : Option (Stats × List String) :=
  if ¬ InDumpSpace dumpSpace obj then
    some (stats, outStream)
  else
    let object_bytes := obj.sizeOf
    let alignment_bytes := RoundUp object_bytes kObjectAlignment - object_bytes
    let stats1 := { stats with
      object_bytes := stats.object_bytes + object_bytes,
      alignment_bytes := stats.alignment_bytes + alignment_bytes }
    let head : String :=
      if obj.isClass then "CLASS " ++ obj.ownDescriptor ++ " (" ++ obj.statusStr ++ ")"
      else
        match obj.asMethod with
        | some m => "METHOD " ++ m.pretty
        | none =>
          if obj.isField then "FIELD " ++ obj.fieldPretty
          else if obj.isArrayInstance then "ARRAY " ++ toString obj.arrayLength
          else if obj.classIsStringClass then "STRING " ++ obj.stringUtf8
          else "OBJECT"
    let descriptor := obj.classDescriptor
    let summary : List String :=
      [toString obj.addr ++ ": ", head, "\n", "\tclass " ++ descriptor ++ "\n"]
    let stats2 := { stats1 with
      descriptor_to_bytes := tableAdd stats1.descriptor_to_bytes descriptor object_bytes,
      descriptor_to_count := tableAdd stats1.descriptor_to_count descriptor 1 }
    match obj.asMethod with
    | none => some (stats2, outStream ++ summary)
    | some m =>
      let summary := summary ++
        (if ¬ m.isCalleeSaveMethod then
          ["\tCODE " ++ toString m.code ++ "\n",
           "\tJNI STUB " ++ toString m.invokeStub ++ "\n"]
         else [])
      if m.isNative then
        let summary := summary ++
          [if m.isRegistered then "\tNATIVE REGISTERED " ++ toString m.nativeMethod ++ "\n"
           else "\tNATIVE UNREGISTERED\n"]
        if m.gcMapIsNull ∧ m.gcMapLength = 0 ∧ m.mappingTableIsNull then
          some (stats2, outStream ++ summary)
        else none
      else if m.isAbstract then
        let summary := summary ++ ["\tABSTRACT\n"]
        if m.gcMapIsNull ∧ m.gcMapLength = 0 ∧ m.mappingTableIsNull then
          some (stats2, outStream ++ summary)
        else none
      else if m.isCalleeSaveMethod then
        let summary := summary ++ ["\tCALLEE SAVE METHOD\n"]
        if m.gcMapIsNull ∧ m.gcMapLength = 0 ∧ m.mappingTableIsNull then
          some (stats2, outStream ++ summary)
        else none
      else
        if ¬ m.gcMapIsNull ∧ m.gcMapLength ≠ 0 then
          let register_map_bytes := m.gcMapLength
          let pc_mapping_table_bytes := m.mappingTableLength
          let dex_instruction_bytes := m.insnsSizeInCodeUnits * 2
          let stats3 := { stats2 with
            register_map_bytes := stats2.register_map_bytes + register_map_bytes,
            pc_mapping_table_bytes := stats2.pc_mapping_table_bytes + pc_mapping_table_bytes,
            dex_instruction_bytes := stats2.dex_instruction_bytes + dex_instruction_bytes }
          let summary := summary ++
            ["GC=" ++ toString register_map_bytes ++ " ",
             "Mapping=" ++ toString pc_mapping_table_bytes ++ " ",
             "\tSIZE Code=" ++ toString dex_instruction_bytes ++
               " GC=" ++ toString register_map_bytes ++
               " Mapping=" ++ toString pc_mapping_table_bytes]
          some (stats3, outStream ++ summary)
        else none

/-- `heap_bitmap->Walk(ImageDump::Callback, &state)` (source line 260):
the external traversal delivers the live objects one at a time, in the
iterator's own order, to the callback. -/
def walkObjects (dumpSpace : Space) (stats : Stats) (outStream : List String) :
    List HeapObject → Option (Stats × List String)
  | [] => some (stats, outStream)
  | obj :: rest =>
    match Callback dumpSpace stats outStream obj with
    | none => none
    | some r => walkObjects dumpSpace r.1 r.2 rest

/-- The finalisation of the stats after the traversal (source lines
263-269): seed `file_bytes` from the on-disk file length, set
`header_bytes`, and add the header's own alignment padding. -/
def Finalize (stats : Stats) (fileLength headerSize : Nat) : Stats :=
  { stats with
    file_bytes := fileLength,
    header_bytes := headerSize,
    alignment_bytes :=
      stats.alignment_bytes + (RoundUp headerSize kObjectAlignment - headerSize) }

/-- `ImageDump::Stats::Dump` (source lines 443-502): render the stats
block; the two `CHECK_EQ` accounting assertions are fatal (`none`).
The `double` percentage and average formatting of the source is rendered
with integer division, which no claim depends on. -/
def Stats.Dump (st : Stats) : Option (List String) :=
  let block1 :=
    ["\tfile_bytes = " ++ toString st.file_bytes,
     "\tfile_bytes = header_bytes + object_bytes + alignment_bytes",
     "\theader_bytes = " ++ toString st.header_bytes,
     "\tobject_bytes = " ++ toString st.object_bytes,
     "\talignment_bytes = " ++ toString st.alignment_bytes]
  if st.file_bytes = st.header_bytes + st.object_bytes + st.alignment_bytes then
    let rows := st.descriptor_to_bytes.map (fun p =>
      let bytes := p.2
      let count := tableGetD st.descriptor_to_count p.1
      let average := bytes / count
      "\t" ++ p.1 ++ " " ++ toString bytes ++ " bytes " ++ toString count ++
        " instances (" ++ toString average ++ " bytes/instance)")
    let object_bytes_total := tableSum st.descriptor_to_bytes
    if st.object_bytes = object_bytes_total then
      some (block1 ++
        ["\tobject_bytes = sum of descriptor_to_bytes values below:"] ++ rows ++
        ["\tmanaged_code_bytes = " ++ toString st.managed_code_bytes,
         "\tmanaged_to_native_code_bytes = " ++ toString st.managed_to_native_code_bytes,
         "\tnative_to_managed_code_bytes = " ++ toString st.native_to_managed_code_bytes,
         "\tregister_map_bytes = " ++ toString st.register_map_bytes,
         "\tpc_mapping_table_bytes = " ++ toString st.pc_mapping_table_bytes,
         "\tdex_instruction_bytes = " ++ toString st.dex_instruction_bytes])
    else none
  else none

/-- Modelled from the spec: the class data backing one class definition
(the dex `class_data_item`, outside this repository snapshot): static
fields, then instance fields, then direct methods, then virtual methods,
in that stored order; each entry is its member index. -/
structure ClassData where
  staticFields : List Nat
  instanceFields : List Nat
  directMethods : List Nat
  virtualMethods : List Nat
deriving DecidableEq

/-- Modelled from the spec: `ClassDataItemIterator` (outside this
repository snapshot): a shared cursor over the concatenation of the four
member sections of one class's class data. -/
structure CDIter where
  cd : ClassData
  pos : Nat
deriving DecidableEq

/-- End-of-section position of the static fields. -/
def CDIter.endStatic (it : CDIter) : Nat := it.cd.staticFields.length

/-- End-of-section position of the instance fields. -/
def CDIter.endInstance (it : CDIter) : Nat :=
  it.endStatic + it.cd.instanceFields.length

/-- End-of-section position of the direct methods. -/
def CDIter.endDirect (it : CDIter) : Nat :=
  it.endInstance + it.cd.directMethods.length

/-- End-of-section position of the virtual methods (total entry count). -/
def CDIter.endVirtual (it : CDIter) : Nat :=
  it.endDirect + it.cd.virtualMethods.length

/-- All entries of the class data in cursor order. -/
def CDIter.members (it : CDIter) : List Nat :=
  it.cd.staticFields ++ it.cd.instanceFields ++
    it.cd.directMethods ++ it.cd.virtualMethods

/-- `it.HasNextStaticField()`. -/
def CDIter.HasNextStaticField (it : CDIter) : Bool := it.pos < it.endStatic

/-- `it.HasNextInstanceField()`. -/
def CDIter.HasNextInstanceField (it : CDIter) : Bool :=
  it.endStatic ≤ it.pos ∧ it.pos < it.endInstance

/-- `it.HasNextDirectMethod()`. -/
def CDIter.HasNextDirectMethod (it : CDIter) : Bool :=
  it.endInstance ≤ it.pos ∧ it.pos < it.endDirect

/-- `it.HasNextVirtualMethod()`. -/
def CDIter.HasNextVirtualMethod (it : CDIter) : Bool :=
  it.endDirect ≤ it.pos ∧ it.pos < it.endVirtual

/-- `it.HasNext()`: the cursor has remaining entries. -/
def CDIter.HasNext (it : CDIter) : Bool := it.pos < it.endVirtual

/-- `it.GetMemberIndex()`. -/
def CDIter.GetMemberIndex (it : CDIter) : Nat := it.members.getD it.pos 0

/-- `it.Next()`: advance the shared cursor. -/
def CDIter.Next (it : CDIter) : CDIter := { it with pos := it.pos + 1 }

/-- First skip loop of `OatDump::DumpOatClass` (source lines 161-163):
`while (it.HasNextStaticField()) it.Next();`, emitting no output. -/
def skipStaticFields (it : CDIter) : CDIter :=
  if it.HasNextStaticField then skipStaticFields it.Next else it
termination_by it.endStatic - it.pos
decreasing_by
  simp [CDIter.HasNextStaticField, CDIter.Next, CDIter.endStatic] at *
  omega

/-- Second skip loop of `OatDump::DumpOatClass` (source lines 164-166):
`while (it.HasNextInstanceField()) it.Next();`, emitting no output. -/
def skipInstanceFields (it : CDIter) : CDIter :=
  if it.HasNextInstanceField then skipInstanceFields it.Next else it
termination_by it.endInstance - it.pos
decreasing_by
  simp [CDIter.HasNextInstanceField, CDIter.Next, CDIter.endInstance,
    CDIter.endStatic] at *
  omega

/-- Direct-method loop of `OatDump::DumpOatClass` (source lines 168-174):
render one entry `(method_index, member index)` per direct method,
incrementing `method_index`; returns the rendered entries, the advanced
cursor and the next `method_index`. -/
def dumpDirectMethods (it : CDIter) (methodIndex : Nat) :
    List (Nat × Nat) × CDIter × Nat :=
  if it.HasNextDirectMethod then
    let r := dumpDirectMethods it.Next (methodIndex + 1)
    ((methodIndex, it.GetMemberIndex) :: r.1, r.2)
  else ([], it, methodIndex)
termination_by it.endDirect - it.pos
decreasing_by
  simp [CDIter.HasNextDirectMethod, CDIter.Next, CDIter.endDirect,
    CDIter.endInstance, CDIter.endStatic] at *
  omega

/-- Virtual-method loop of `OatDump::DumpOatClass` (source lines 175-180):
continues the same `method_index` across the direct-then-virtual
concatenation. -/
def dumpVirtualMethods (it : CDIter) (methodIndex : Nat) :
    List (Nat × Nat) × CDIter × Nat :=
  if it.HasNextVirtualMethod then
    let r := dumpVirtualMethods it.Next (methodIndex + 1)
    ((methodIndex, it.GetMemberIndex) :: r.1, r.2)
  else ([], it, methodIndex)
termination_by it.endVirtual - it.pos
decreasing_by
  simp [CDIter.HasNextVirtualMethod, CDIter.Next, CDIter.endVirtual,
    CDIter.endDirect, CDIter.endInstance, CDIter.endStatic] at *
  omega

/-- `OatDump::DumpOatClass` (source lines 149-183): `none` class data is
an empty marker class, rendered with no methods; otherwise skip the two
field sections, render direct then virtual methods with a shared
zero-based `method_index`, and fatally check `DCHECK(!it.HasNext())`. -/
def DumpOatClass (classData : Option ClassData) : Option (List (Nat × Nat)) :=
  match classData with
  | none => some []
  | some cd =>
    let it0 : CDIter := ⟨cd, 0⟩
    let it1 := skipStaticFields it0
    let it2 := skipInstanceFields it1
    let rd := dumpDirectMethods it2 0
    let rv := dumpVirtualMethods rd.2.1 rd.2.2
    if rv.2.1.HasNext then none else some (rd.1 ++ rv.1)

/-- One class definition of a dex file together with the status string of
its oat class (`dex_file->GetClassDef`, `oat_dex_file.GetOatClass`). -/
structure ClassDef where
  classIdx : Nat
  descriptor : String
  statusStr : String
  classData : Option ClassData
deriving DecidableEq

/-- The decoded source unit a location resolves to. -/
structure DexFileModel where
  classDefs : List ClassDef
deriving DecidableEq

/-- One `OatFile::OatDexFile` entry. -/
structure OatDexFileModel where
  dexFileLocation : String
  dexFileLocationChecksum : Nat
deriving DecidableEq

/-- An `OatFile` with its header fields and dex-file table. -/
structure OatFileModel where
  magic : String
  checksum : Nat
  dexFileCount : Nat
  executableOffset : Nat
  oatDexFiles : List OatDexFileModel
deriving DecidableEq

/-- The rendered per-class header line (source lines 141-142). -/
def classLine (classDefIndex : Nat) (cdef : ClassDef) : String :=
  toString classDefIndex ++ ": " ++ cdef.descriptor ++
    " (type_idx=" ++ toString cdef.classIdx ++ ") (" ++ cdef.statusStr ++ ")"

/-- The rendered per-method header line of `OatDump::DumpOatMethod`
(source lines 193-194); the further fixed-format detail lines carry no
claim-relevant data. -/
def methodLine (entry : Nat × Nat) : String :=
  "\t" ++ toString entry.1 ++ ": (method_idx=" ++ toString entry.2 ++ ")"

/-- Render one class definition: its header line, then its method lines
(source lines 136-144 together with `DumpOatClass`). -/
def renderOatClassEntry (classDefIndex : Nat) (cdef : ClassDef) :
    Option (List String) :=
  match DumpOatClass cdef.classData with
  | none => none
  | some entries => some (classLine classDefIndex cdef :: entries.map methodLine)

/-- The per-class loop of `OatDump::DumpOatDexFile` (source lines
136-144), carrying `class_def_index`. -/
def renderClassDefs : Nat → List ClassDef → Option (List String)
  | _, [] => some []
  | i, c :: rest =>
    match renderOatClassEntry i c with
    | none => none
    | some ls => (renderClassDefs (i + 1) rest).map (fun r => ls ++ r)

/-- The path transform applied to a stored artifact location before
lookup (source lines 125-128 and 280-283): a non-empty caller-supplied
path string is prepended to the stored location. -/
def lookupKey (hostPathPre location : String) : String :=
  if hostPathPre = "" then location else hostPathPre ++ location

/-- `OatDump::DumpOatDexFile` (source lines 118-147): render the dex-file
block; when the (possibly prefix-translated) location cannot be opened,
render `NOT FOUND` and return without error. -/
def DumpOatDexFile (hostPathPre : String)
    (openDexFile : String → Option DexFileModel)
    (odf : OatDexFileModel) : Option (List String) :=
  let loc0 := odf.dexFileLocation
  let key := lookupKey hostPathPre loc0
  let head :=
    ["OAT DEX FILE:",
     "location: " ++ loc0 ++ (if hostPathPre = "" then "" else " (" ++ key ++ ")"),
     "checksum: " ++ toString odf.dexFileLocationChecksum]
  match openDexFile key with
  | none => some (head ++ ["NOT FOUND"])
  | some dex => (renderClassDefs 0 dex.classDefs).map (fun r => head ++ r)

/-- The dex-file loop of `OatDump::Dump` (source lines 109-114). -/
def dumpOatDexFiles (hostPathPre : String)
    (openDexFile : String → Option DexFileModel) :
    List OatDexFileModel → Option (List String)
  | [] => some []
  | odf :: rest =>
    match DumpOatDexFile hostPathPre openDexFile odf with
    | none => none
    | some ls => (dumpOatDexFiles hostPathPre openDexFile rest).map (fun r => ls ++ r)

/-- `OatDump::Dump` (source lines 83-115): header block then the per
dex-file blocks. -/
def OatDumpDump (hostPathPre : String)
    (openDexFile : String → Option DexFileModel)
    (oatFile : OatFileModel) : Option (List String) :=
  let head :=
    ["MAGIC:", oatFile.magic,
     "CHECKSUM: " ++ toString oatFile.checksum,
     "DEX FILE COUNT: " ++ toString oatFile.dexFileCount,
     "EXECUTABLE OFFSET: " ++ toString oatFile.executableOffset,
     "BEGIN:", "END:"]
  (dumpOatDexFiles hostPathPre openDexFile oatFile.oatDexFiles).map
    (fun r => head ++ r)

/-- Modelled from the spec: the heap-snapshot `ImageHeader` fields the
dumper renders, and the stored oat location root (outside this repository
snapshot). -/
structure ImageHeaderModel where
  magic : String
  imageBegin : Nat
  oatChecksum : Nat
  oatBegin : Nat
  oatEnd : Nat
  oatLocation : String
deriving DecidableEq

/-- `image_roots_descriptions_` (source lines 67-79). -/
def imageRootsDescriptions : List String :=
  ["kJniStubArray", "kAbstractMethodErrorStubArray",
   "kInstanceResolutionStubArray", "kStaticResolutionStubArray",
   "kUnknownMethodResolutionStubArray", "kCalleeSaveMethod",
   "kRefsOnlySaveMethod", "kRefsAndArgsSaveMethod", "kOatLocation",
   "kDexCaches", "kClassRoots"]

/-- The image-header block of `ImageDump::Dump` (source lines 221-254). -/
def headerLines (hdr : ImageHeaderModel) : List String :=
  ["MAGIC:", hdr.magic,
   "IMAGE BEGIN: " ++ toString hdr.imageBegin,
   "OAT CHECKSUM: " ++ toString hdr.oatChecksum,
   "OAT BEGIN: " ++ toString hdr.oatBegin,
   "OAT END: " ++ toString hdr.oatEnd,
   "ROOTS:"] ++ imageRootsDescriptions

/-- `ImageDump::Dump` (source lines 216-295): header block, traversal of
the live objects, finalised stats block, then the oat-location lookup;
a failed lookup renders `NOT FOUND` and returns, otherwise the companion
oat file is dumped recursively. `fileLength` is the on-disk image file
length and `headerSize` is `sizeof(ImageHeader)`, both external inputs. -/
def ImageDumpDump (fileLength headerSize : Nat) (hostPathPre : String)
    (hdr : ImageHeaderModel) (dumpSpace : Space)
    (liveObjects : List HeapObject)
    (findOatFileFromOatLocation : String → Option OatFileModel)
    (openDexFile : String → Option DexFileModel) : Option (List String) :=
  match walkObjects dumpSpace Stats.init [] liveObjects with
  | none => none
  | some r =>
    let stats := Finalize r.1 fileLength headerSize
    match Stats.Dump stats with
    | none => none
    | some statsBlock =>
      let oatLocation := hdr.oatLocation
      let key := lookupKey hostPathPre oatLocation
      let os1 := headerLines hdr ++ ["OBJECTS:"] ++ r.2 ++ ["STATS:"] ++
        statsBlock ++
        ["OAT LOCATION:",
         oatLocation ++ (if hostPathPre = "" then "" else " (" ++ key ++ ")")]
      match findOatFileFromOatLocation key with
      | none => some (os1 ++ ["NOT FOUND"])
      | some oatFile =>
        (OatDumpDump hostPathPre openDexFile oatFile).map (fun r2 => os1 ++ r2)

/-- `EXIT_SUCCESS`. -/
def EXIT_SUCCESS : Nat := 0

/-- The image branch of `oatdump` (source lines 599-607): run
`ImageDump::Dump` and return `EXIT_SUCCESS`; `none` is a fatal
internal-consistency abort inside the dump. -/
def oatdumpImageBranch (fileLength headerSize : Nat) (hostPathPre : String)
    (hdr : ImageHeaderModel) (dumpSpace : Space)
    (liveObjects : List HeapObject)
    (findOatFileFromOatLocation : String → Option OatFileModel)
    (openDexFile : String → Option DexFileModel) : Option (Nat × List String) :=
  (ImageDumpDump fileLength headerSize hostPathPre hdr dumpSpace liveObjects
      findOatFileFromOatLocation openDexFile).map
    (fun os => (EXIT_SUCCESS, os))

/-! Concrete inputs used by the witness and counterexample theorems. -/

/-- A small target region. -/
def spX : Space := ⟨0, 100⟩

/-- A managed method whose mapping table is NULL (length 0) while its
register/GC map is present with length 4. -/
def cexMapM : MethodRef := ⟨77, 5, false, false, 0, false, false, false, 4, true, 0, 3, "m"⟩

/-- The heap object carrying `cexMapM`, inside `spX`. -/
def cexMapObj : HeapObject :=
  ⟨16, 20, false, "", "", some cexMapM, false, "", false, 0, false, "", "LC;"⟩

/-- A managed method with a non-null code pointer, a 4-byte register map,
an 8-byte mapping table and 3 code units. -/
def mgdM : MethodRef := ⟨77, 5, false, false, 0, false, false, false, 4, false, 8, 3, "m"⟩

/-- The heap object carrying `mgdM`, inside `spX`. -/
def mgdObj : HeapObject :=
  ⟨16, 20, false, "", "", some mgdM, false, "", false, 0, false, "", "LC;"⟩

/-- The accumulator and stream after visiting `mgdObj` once. -/
def mgdRes : Stats × List String :=
  (Callback spX Stats.init [] mgdObj).getD (Stats.init, [])

/-- An unregistered native method obeying the absence contract. -/
def natM : MethodRef := ⟨77, 5, true, false, 0, false, false, true, 0, true, 0, 0, "w"⟩

/-- The heap object carrying `natM`, inside `spX`. -/
def natObj : HeapObject :=
  ⟨8, 24, false, "", "", some natM, false, "", false, 0, false, "", "LM;"⟩

/-- The accumulator and stream after visiting `natObj` once. -/
def natRes : Stats × List String :=
  (Callback spX Stats.init [] natObj).getD (Stats.init, [])

/-- A plain object outside every region of `spW`. -/
def outObj : HeapObject :=
  ⟨5, 16, false, "", "", none, false, "", false, 0, false, "", "LO;"⟩

/-- An empty target region. -/
def spW : Space := ⟨0, 0⟩

/-- A class definition whose class data is absent (empty marker class). -/
def mkrDef : ClassDef := ⟨7, "LFoo;", "kStatusVerified", none⟩

/-- A plain in-region object for the map-invariant witness. -/
def plainObj : HeapObject :=
  ⟨8, 12, false, "", "", none, false, "", false, 0, false, "", "LP;"⟩

/-- The walk result over `[plainObj]` for the map-invariant witness. -/
def plainRes : Stats × List String :=
  (walkObjects spX Stats.init [] [plainObj]).getD (Stats.init, [])

/-- An image header whose stored companion location is `/x`. -/
def hdrW : ImageHeaderModel := ⟨"art", 0, 0, 0, 0, "/x"⟩

/-- The finalised stats block of an empty traversal of an 8-byte file
with an 8-byte header. -/
def statsBlockW : List String := (Stats.Dump (Finalize Stats.init 8 8)).getD []

/-! Theorems. -/

/-- C1: when the finalized statistics are rendered, the rendering
completes exactly when the two accounting invariants hold —
`file_bytes = header_bytes + object_bytes + alignment_bytes` and
`object_bytes = sum(descriptor_to_bytes.values())` — and any mismatch is
fatal (the renderer terminates the operation instead of returning). -/
theorem statsDump_checks_iff (st : Stats) :
    (Stats.Dump st).isSome = true ↔
      (st.file_bytes = st.header_bytes + st.object_bytes + st.alignment_bytes ∧
       st.object_bytes = tableSum st.descriptor_to_bytes) := by
  by_cases h1 : st.file_bytes = st.header_bytes + st.object_bytes + st.alignment_bytes <;>
    by_cases h2 : st.object_bytes = tableSum st.descriptor_to_bytes <;>
      simp [Stats.Dump, h1, h2]

/-- C5: the classifier assigns exactly one top-level category by applying
the capability checks in the fixed precedence order class, method, field,
array, string, else plain object, with the first matching check winning
even when later checks would also match. -/
theorem classify_firstMatch (obj : HeapObject) :
    classifyObject obj = firstMatchCategory obj := by
  cases h1 : obj.isClass <;> cases h2 : obj.isMethod <;> cases h3 : obj.isField <;>
    cases h4 : obj.isArrayInstance <;> cases h5 : obj.classIsStringClass <;>
      simp [classifyObject, firstMatchCategory, categoryChecks, h1, h2, h3, h4, h5]

/-- C6: for an object outside the designated target region, the visit
callback returns with the statistics accumulator and the output stream
both unchanged. -/
theorem callback_skips_outside (dumpSpace : Space) (st : Stats)
    (os : List String) (obj : HeapObject)
    (h : InDumpSpace dumpSpace obj = false) :
    Callback dumpSpace st os obj = some (st, os) := by
  simp [Callback, h]

/-- Witness for C6 at a concrete out-of-region object. -/
theorem callback_skips_outside_witness :
    Callback spW Stats.init [] outObj = some (Stats.init, []) :=
  callback_skips_outside spW Stats.init [] outObj (by decide)

/-- C9: a class definition whose class data is absent (an empty marker
class) is rendered as its class entry with an empty method sequence, and
no error is raised. -/
theorem emptyClassData_renders (classDefIndex : Nat) (cdef : ClassDef)
    (h : cdef.classData = none) :
    renderOatClassEntry classDefIndex cdef =
      some [classLine classDefIndex cdef] := by
  simp [renderOatClassEntry, DumpOatClass, h]

/-- Witness for C9 at a concrete marker class. -/
theorem emptyClassData_renders_witness :
    renderOatClassEntry 3 mkrDef = some [classLine 3 mkrDef] :=
  emptyClassData_renders 3 mkrDef rfl

/-- C8: a non-empty caller-supplied path string is prepended to the
stored location before lookup — in particular `"/root"` with
`"/system/foo.art"` yields `"/root/system/foo.art"` — and both the
companion-artifact lookup of `ImageDump::Dump` and the source-unit open
of `OatDump::DumpOatDexFile` consult their resolver only at that
transformed key. -/
theorem lookupKey_transform :
    (∀ hp loc : String, hp ≠ "" → lookupKey hp loc = hp ++ loc) ∧
    lookupKey "/root" "/system/foo.art" = "/root/system/foo.art" ∧
    (∀ (hp : String) (f g : String → Option DexFileModel) (odf : OatDexFileModel),
       f (lookupKey hp odf.dexFileLocation) = g (lookupKey hp odf.dexFileLocation) →
       DumpOatDexFile hp f odf = DumpOatDexFile hp g odf) ∧
    (∀ (fileLength headerSize : Nat) (hp : String) (hdr : ImageHeaderModel)
       (dumpSpace : Space) (objs : List HeapObject)
       (f g : String → Option OatFileModel) (od : String → Option DexFileModel),
       f (lookupKey hp hdr.oatLocation) = g (lookupKey hp hdr.oatLocation) →
       ImageDumpDump fileLength headerSize hp hdr dumpSpace objs f od =
         ImageDumpDump fileLength headerSize hp hdr dumpSpace objs g od) := by
  refine ⟨?_, ?_, ?_, ?_⟩
  · intro hp loc h
    simp [lookupKey, h]
  · decide
  · intro hp f g odf h
    unfold DumpOatDexFile
    simp only [h]
  · intro fileLength headerSize hp hdr dumpSpace objs f g od h
    unfold ImageDumpDump
    simp only [h]

/-- Witness for C8: the transform at the spec's concrete prefix and
location. -/
theorem lookupKey_transform_witness :
    lookupKey "/root" "/system/foo.art" = "/root" ++ "/system/foo.art" :=
  lookupKey_transform.1 "/root" "/system/foo.art" (by decide)

/-- C2 counterexample: a managed method (not native, abstract or
callee-save) whose mapping table is NULL is processed by the visit
callback without any internal-consistency fault, contradicting the
claim that a managed method must carry a mapping table on pain of a
fault. -/
theorem methodKind_mapping_cex :
    (cexMapM.isNative || cexMapM.isAbstract || cexMapM.isCalleeSaveMethod) = false ∧
    cexMapM.mappingTableIsNull = true ∧
    cexMapObj.asMethod = some cexMapM ∧
    InDumpSpace spX cexMapObj = true ∧
    (Callback spX Stats.init [] cexMapObj).isSome = true := by
  refine ⟨rfl, rfl, rfl, by decide, ?_⟩
  rfl

/-- C2 amended: for a visited in-region method of kind native, abstract
or callee-save-stub, callback completion guarantees the register/GC map
is null with length exactly 0 and the mapping table is null, and nothing
mapping-table, register-map or dex-instruction related is accumulated;
for a managed method, completion guarantees a non-null register/GC map of
length strictly greater than 0 (a violation of these checked conditions
is a fatal internal-consistency fault), while the mapping table's
presence is not checked. -/
theorem methodKind_sideTables (dumpSpace : Space) (st : Stats)
    (os : List String) (obj : HeapObject) (m : MethodRef)
    (res : Stats × List String)
    (hm : obj.asMethod = some m)
    (hin : InDumpSpace dumpSpace obj = true)
    (hres : Callback dumpSpace st os obj = some res) :
    ((m.isNative || m.isAbstract || m.isCalleeSaveMethod) = true →
       m.gcMapIsNull = true ∧ m.gcMapLength = 0 ∧ m.mappingTableIsNull = true ∧
       res.1.pc_mapping_table_bytes = st.pc_mapping_table_bytes ∧
       res.1.register_map_bytes = st.register_map_bytes ∧
       res.1.dex_instruction_bytes = st.dex_instruction_bytes) ∧
    ((m.isNative || m.isAbstract || m.isCalleeSaveMethod) = false →
       m.gcMapIsNull = false ∧ 0 < m.gcMapLength) := by
  simp only [Callback, hin, hm, Bool.not_eq_true] at hres
  cases hn : m.isNative <;> cases ha : m.isAbstract <;>
    cases hc : m.isCalleeSaveMethod <;>
      simp only [hn, ha, hc, Bool.or_self, Bool.or_true, Bool.true_or,
        Bool.or_false, Bool.false_or, Bool.false_eq_true, Bool.true_eq_false,
        if_true, if_false, ite_true, ite_false] at hres ⊢
  all_goals rw [if_neg (by simp)] at hres
  case false.false.false =>
    refine ⟨fun h => h.elim, fun _ => ?_⟩
    split at hres
    · rename_i hd
      exact ⟨hd.1, Nat.pos_of_ne_zero hd.2⟩
    · simp at hres
  all_goals
    refine ⟨fun _ => ?_, fun h => h.elim⟩
  all_goals
    split at hres
  all_goals first
    | (rename_i hd
       injection hres with h
       subst h
       exact ⟨hd.1, hd.2.1, hd.2.2, rfl, rfl, rfl⟩)
    | injection hres

/-- Witness for the amended C2 at a concrete unregistered native
method. -/
theorem methodKind_sideTables_witness :
    ((natM.isNative || natM.isAbstract || natM.isCalleeSaveMethod) = true →
       natM.gcMapIsNull = true ∧ natM.gcMapLength = 0 ∧
       natM.mappingTableIsNull = true ∧
       natRes.1.pc_mapping_table_bytes = Stats.init.pc_mapping_table_bytes ∧
       natRes.1.register_map_bytes = Stats.init.register_map_bytes ∧
       natRes.1.dex_instruction_bytes = Stats.init.dex_instruction_bytes) ∧
    ((natM.isNative || natM.isAbstract || natM.isCalleeSaveMethod) = false →
       natM.gcMapIsNull = false ∧ 0 < natM.gcMapLength) :=
  methodKind_sideTables spX Stats.init [] natObj natM natRes rfl (by decide) rfl

/-- C3 counterexample: visiting a managed method with a non-null code
pointer, a 4-byte register map, an 8-byte mapping table and 3 code units
routes 4, 8 and 6 bytes into the register-map, mapping-table and
dex-instruction totals, but leaves the managed-code total at 0 — no
native/code contribution is ever added to `managed_code_bytes`. -/
theorem managedCode_cex :
    mgdM.code ≠ 0 ∧
    (Callback spX Stats.init [] mgdObj).map
        (fun r => (r.1.managed_code_bytes, r.1.register_map_bytes,
                   r.1.pc_mapping_table_bytes, r.1.dex_instruction_bytes)) =
      some (0, 4, 8, 6) := by
  exact ⟨by decide, rfl⟩

/-- C3 amended: visiting an in-region managed method adds the
register/GC-map byte length to the register-map total, the mapping-table
byte length to the mapping-table total and the code item's
instruction-unit count times 2 to the dex-instruction total, while the
managed-code total is never updated by the visitor. -/
theorem managedMethod_totals (dumpSpace : Space) (st : Stats)
    (os : List String) (obj : HeapObject) (m : MethodRef)
    (res : Stats × List String)
    (hm : obj.asMethod = some m)
    (hin : InDumpSpace dumpSpace obj = true)
    (hkind : (m.isNative || m.isAbstract || m.isCalleeSaveMethod) = false)
    (hres : Callback dumpSpace st os obj = some res) :
    res.1.register_map_bytes = st.register_map_bytes + m.gcMapLength ∧
    res.1.pc_mapping_table_bytes = st.pc_mapping_table_bytes + m.mappingTableLength ∧
    res.1.dex_instruction_bytes = st.dex_instruction_bytes + m.insnsSizeInCodeUnits * 2 ∧
    res.1.managed_code_bytes = st.managed_code_bytes := by
  have hn : m.isNative = false := by
    cases h : m.isNative <;> simp [h] at hkind ⊢
  have ha : m.isAbstract = false := by
    cases h : m.isAbstract <;> simp [h] at hkind ⊢
  have hc : m.isCalleeSaveMethod = false := by
    cases h : m.isCalleeSaveMethod <;> simp [h] at hkind ⊢
  simp only [Callback, hin, hm, hn, ha, hc, Bool.not_eq_true, Bool.false_eq_true,
    if_false, ite_false] at hres
  rw [if_neg (by simp)] at hres
  split at hres
  · injection hres with h
    subst h
    exact ⟨rfl, rfl, rfl, rfl⟩
  · injection hres

/-- Witness for the amended C3 at the concrete managed method. -/
theorem managedMethod_totals_witness :
    mgdRes.1.register_map_bytes = Stats.init.register_map_bytes + mgdM.gcMapLength ∧
    mgdRes.1.pc_mapping_table_bytes =
      Stats.init.pc_mapping_table_bytes + mgdM.mappingTableLength ∧
    mgdRes.1.dex_instruction_bytes =
      Stats.init.dex_instruction_bytes + mgdM.insnsSizeInCodeUnits * 2 ∧
    mgdRes.1.managed_code_bytes = Stats.init.managed_code_bytes :=
  managedMethod_totals spX Stats.init [] mgdObj mgdM mgdRes rfl (by decide) rfl rfl

/-- C7: when the companion oat file cannot be located, the dump renders
the already-emitted heap statistics block, appends a `NOT FOUND` marker
instead of aborting, and the image branch of `oatdump` still returns
`EXIT_SUCCESS`. -/
theorem oatNotFound_degraded (fileLength headerSize : Nat)
    (hostPathPre : String) (hdr : ImageHeaderModel) (dumpSpace : Space)
    (liveObjects : List HeapObject)
    (findOat : String → Option OatFileModel)
    (openDex : String → Option DexFileModel)
    (st : Stats) (objLines statsBlock : List String)
    (hwalk : walkObjects dumpSpace Stats.init [] liveObjects = some (st, objLines))
    (hstats : Stats.Dump (Finalize st fileLength headerSize) = some statsBlock)
    (hfind : findOat (lookupKey hostPathPre hdr.oatLocation) = none) :
    oatdumpImageBranch fileLength headerSize hostPathPre hdr dumpSpace
        liveObjects findOat openDex =
      some (EXIT_SUCCESS,
        headerLines hdr ++ ["OBJECTS:"] ++ objLines ++ ["STATS:"] ++ statsBlock ++
          ["OAT LOCATION:",
           hdr.oatLocation ++
             (if hostPathPre = "" then ""
              else " (" ++ lookupKey hostPathPre hdr.oatLocation ++ ")")] ++
          ["NOT FOUND"]) := by
  unfold oatdumpImageBranch ImageDumpDump
  rw [hwalk]
  simp [hstats, hfind, List.append_assoc]

/-- Witness for C7: an empty traversal of an 8-byte snapshot whose
companion lookup fails. -/
theorem oatNotFound_degraded_witness :
    oatdumpImageBranch 8 8 "" hdrW spW [] (fun _ => none) (fun _ => none) =
      some (EXIT_SUCCESS,
        headerLines hdrW ++ ["OBJECTS:"] ++ [] ++ ["STATS:"] ++ statsBlockW ++
          ["OAT LOCATION:",
           hdrW.oatLocation ++
             (if ("" : String) = "" then ""
              else " (" ++ lookupKey "" hdrW.oatLocation ++ ")")] ++
          ["NOT FOUND"]) :=
  oatNotFound_degraded 8 8 "" hdrW spW [] (fun _ => none) (fun _ => none)
    Stats.init [] statsBlockW rfl rfl rfl



/-- The static-field skip loop advances the cursor to the end of the
static-field section. -/
lemma skipStaticFields_eq (cd : ClassData) :
    ∀ n j, j + n = cd.staticFields.length →
      skipStaticFields ⟨cd, j⟩ = ⟨cd, cd.staticFields.length⟩ := by
  intro n
  induction n with
  | zero =>
    intro j hj
    have hg : ¬ ((⟨cd, j⟩ : CDIter).HasNextStaticField = true) := by
      simp [CDIter.HasNextStaticField, CDIter.endStatic]
      omega
    rw [skipStaticFields, if_neg hg]
    simp only [CDIter.mk.injEq, true_and]
    omega
  | succ n ih =>
    intro j hj
    have hg : (⟨cd, j⟩ : CDIter).HasNextStaticField = true := by
      simp [CDIter.HasNextStaticField, CDIter.endStatic]
      omega
    rw [skipStaticFields, if_pos hg]
    exact ih (j + 1) (by omega)

/-- The instance-field skip loop advances the cursor to the end of the
instance-field section. -/
lemma skipInstanceFields_eq (cd : ClassData) :
    ∀ n j p, j + n = cd.instanceFields.length →
      p = cd.staticFields.length + j →
      skipInstanceFields ⟨cd, p⟩ =
        ⟨cd, cd.staticFields.length + cd.instanceFields.length⟩ := by
  intro n
  induction n with
  | zero =>
    intro j p hj hp
    have hg : ¬ ((⟨cd, p⟩ : CDIter).HasNextInstanceField = true) := by
      simp [CDIter.HasNextInstanceField, CDIter.endStatic, CDIter.endInstance]
      omega
    rw [skipInstanceFields, if_neg hg]
    simp only [CDIter.mk.injEq, true_and]
    omega
  | succ n ih =>
    intro j p hj hp
    have hg : (⟨cd, p⟩ : CDIter).HasNextInstanceField = true := by
      simp [CDIter.HasNextInstanceField, CDIter.endStatic, CDIter.endInstance]
      omega
    rw [skipInstanceFields, if_pos hg]
    exact ih (j + 1) (p + 1) (by omega) (by omega)

/-- The member index under the cursor inside the direct-method section. -/
lemma getMember_direct (cd : ClassData) (j : Nat)
    (hj : j < cd.directMethods.length) :
    (⟨cd, cd.staticFields.length + cd.instanceFields.length + j⟩ :
        CDIter).GetMemberIndex = cd.directMethods.getD j 0 := by
  unfold CDIter.GetMemberIndex CDIter.members
  rw [List.getD_append]
  · rw [List.getD_append_right]
    · rw [show cd.staticFields.length + cd.instanceFields.length + j -
        (cd.staticFields ++ cd.instanceFields).length = j from
        by simp only [List.length_append]; omega]
    · simp only [List.length_append]
      omega
  · simp only [List.length_append]
    omega

/-- The member index under the cursor inside the virtual-method section. -/
lemma getMember_virtual (cd : ClassData) (j : Nat)
    ( _hj : j < cd.virtualMethods.length) :
    (⟨cd, cd.staticFields.length + cd.instanceFields.length +
        cd.directMethods.length + j⟩ : CDIter).GetMemberIndex =
      cd.virtualMethods.getD j 0 := by
  unfold CDIter.GetMemberIndex CDIter.members
  rw [List.getD_append_right]
  · rw [show cd.staticFields.length + cd.instanceFields.length +
      cd.directMethods.length + j -
      (cd.staticFields ++ cd.instanceFields ++ cd.directMethods).length = j from
      by simp only [List.length_append]; omega]
  · simp only [List.length_append]
    omega



/-- The direct-method loop renders one ordinal-numbered entry per direct
method and leaves the cursor at the end of the section. -/
lemma dumpDirectMethods_eq (cd : ClassData) :
    ∀ n j mi p, j + n = cd.directMethods.length →
      p = cd.staticFields.length + cd.instanceFields.length + j →
      dumpDirectMethods ⟨cd, p⟩ mi =
        ((List.range' mi n).zip (cd.directMethods.drop j),
         ⟨cd, cd.staticFields.length + cd.instanceFields.length +
            cd.directMethods.length⟩,
         mi + n) := by
  intro n
  induction n with
  | zero =>
    intro j mi p hj hp
    have hg : ¬ ((⟨cd, p⟩ : CDIter).HasNextDirectMethod = true) := by
      simp [CDIter.HasNextDirectMethod, CDIter.endInstance, CDIter.endDirect,
        CDIter.endStatic]
      omega
    rw [dumpDirectMethods, if_neg hg]
    simp only [List.range', List.zip_nil_left, Prod.mk.injEq, CDIter.mk.injEq,
      true_and]
    refine ⟨?_, ?_⟩ <;> omega
  | succ n ih =>
    intro j mi p hj hp
    subst hp
    have hjlt : j < cd.directMethods.length := by omega
    have hg : ((⟨cd, cd.staticFields.length + cd.instanceFields.length + j⟩ :
        CDIter).HasNextDirectMethod = true) := by
      simp [CDIter.HasNextDirectMethod, CDIter.endInstance, CDIter.endDirect,
        CDIter.endStatic]
      omega
    rw [dumpDirectMethods, if_pos hg]
    have hnext : (⟨cd, cd.staticFields.length + cd.instanceFields.length + j⟩ :
        CDIter).Next =
        ⟨cd, cd.staticFields.length + cd.instanceFields.length + (j + 1)⟩ := by
      simp only [CDIter.Next, CDIter.mk.injEq, true_and]
      omega
    rw [hnext, ih (j + 1) (mi + 1) _ (by omega) rfl]
    rw [getMember_direct cd j hjlt]
    have hdrop : cd.directMethods.drop j =
        cd.directMethods.getD j 0 :: cd.directMethods.drop (j + 1) := by
      rw [List.drop_eq_getElem_cons hjlt, List.getD_eq_getElem _ _ hjlt]
    rw [hdrop, List.range'_succ, List.zip_cons_cons]
    simp only [Prod.mk.injEq, CDIter.mk.injEq, true_and, List.cons.injEq]
    omega

/-- The virtual-method loop renders one ordinal-numbered entry per
virtual method and leaves the cursor at the end of the class data. -/
lemma dumpVirtualMethods_eq (cd : ClassData) :
    ∀ n j mi p, j + n = cd.virtualMethods.length →
      p = cd.staticFields.length + cd.instanceFields.length +
        cd.directMethods.length + j →
      dumpVirtualMethods ⟨cd, p⟩ mi =
        ((List.range' mi n).zip (cd.virtualMethods.drop j),
         ⟨cd, cd.staticFields.length + cd.instanceFields.length +
            cd.directMethods.length + cd.virtualMethods.length⟩,
         mi + n) := by
  intro n
  induction n with
  | zero =>
    intro j mi p hj hp
    have hg : ¬ ((⟨cd, p⟩ : CDIter).HasNextVirtualMethod = true) := by
      simp [CDIter.HasNextVirtualMethod, CDIter.endDirect, CDIter.endVirtual,
        CDIter.endInstance, CDIter.endStatic]
      omega
    rw [dumpVirtualMethods, if_neg hg]
    simp only [List.range', List.zip_nil_left, Prod.mk.injEq, CDIter.mk.injEq,
      true_and]
    refine ⟨?_, ?_⟩ <;> omega
  | succ n ih =>
    intro j mi p hj hp
    subst hp
    have hjlt : j < cd.virtualMethods.length := by omega
    have hg : ((⟨cd, cd.staticFields.length + cd.instanceFields.length +
        cd.directMethods.length + j⟩ : CDIter).HasNextVirtualMethod = true) := by
      simp [CDIter.HasNextVirtualMethod, CDIter.endDirect, CDIter.endVirtual,
        CDIter.endInstance, CDIter.endStatic]
      omega
    rw [dumpVirtualMethods, if_pos hg]
    have hnext : (⟨cd, cd.staticFields.length + cd.instanceFields.length +
        cd.directMethods.length + j⟩ : CDIter).Next =
        ⟨cd, cd.staticFields.length + cd.instanceFields.length +
          cd.directMethods.length + (j + 1)⟩ := by
      simp only [CDIter.Next, CDIter.mk.injEq, true_and]
      omega
    rw [hnext, ih (j + 1) (mi + 1) _ (by omega) rfl]
    rw [getMember_virtual cd j hjlt]
    have hdrop : cd.virtualMethods.drop j =
        cd.virtualMethods.getD j 0 :: cd.virtualMethods.drop (j + 1) := by
      rw [List.drop_eq_getElem_cons hjlt, List.getD_eq_getElem _ _ hjlt]
    rw [hdrop, List.range'_succ, List.zip_cons_cons]
    simp only [Prod.mk.injEq, CDIter.mk.injEq, true_and, List.cons.injEq]
    omega

/-- C4: for every class with member data, the walker skips the field
sections without emitting output and renders exactly the direct methods
followed by the virtual methods, with a zero-based ordinal increasing by
one across the concatenation — the rendered entries are precisely
`zip [0, 1, ...] (direct ++ virtual)`, so the method count is
`direct + virtual` — and the shared cursor finishes with zero remaining
entries (a remainder would make the walk return the fatal `none`, not
`some`). -/
theorem dumpOatClass_methods (cd : ClassData) :
    DumpOatClass (some cd) =
      some ((List.range (cd.directMethods.length + cd.virtualMethods.length)).zip
        (cd.directMethods ++ cd.virtualMethods)) := by
  simp only [DumpOatClass]
  rw [skipStaticFields_eq cd cd.staticFields.length 0 (by omega)]
  rw [skipInstanceFields_eq cd cd.instanceFields.length 0 cd.staticFields.length
    (by omega) (by omega)]
  rw [dumpDirectMethods_eq cd cd.directMethods.length 0 0
    (cd.staticFields.length + cd.instanceFields.length) (by omega) (by omega)]
  rw [dumpVirtualMethods_eq cd cd.virtualMethods.length 0
    (0 + cd.directMethods.length)
    (cd.staticFields.length + cd.instanceFields.length + cd.directMethods.length)
    (by omega) (by omega)]
  rw [if_neg]
  · rw [List.range_eq_range',
      show cd.directMethods.length + cd.virtualMethods.length =
        cd.virtualMethods.length + cd.directMethods.length from by omega,
      ← List.range'_append 0 cd.directMethods.length cd.virtualMethods.length 1,
      List.zip_append (by simp)]
    simp
  · simp [CDIter.HasNext, CDIter.endVirtual, CDIter.endDirect,
      CDIter.endInstance, CDIter.endStatic]




/-- Adding under a key preserves the key list, appending the key when it
is fresh. -/
lemma tableAdd_keys (m : Table) (k : String) (v : Nat) :
    tableKeys (tableAdd m k v) =
      if k ∈ tableKeys m then tableKeys m else tableKeys m ++ [k] := by
  induction m with
  | nil => simp [tableAdd, tableKeys]
  | cons p rest ih =>
    obtain ⟨k0, v0⟩ := p
    by_cases h : k0 = k
    · subst h
      simp [tableAdd, tableKeys]
    · simp only [tableAdd, if_neg h, tableKeys, List.map_cons] at ih ⊢
      rw [ih]
      by_cases hmem : k ∈ List.map Prod.fst rest
      · simp [hmem, Ne.symm h]
      · simp [hmem, Ne.symm h]

/-- Adding a positive amount keeps every stored value positive. -/
lemma tableAdd_values (m : Table) (k : String) (v : Nat)
    (h : ∀ p ∈ m, 1 ≤ p.2) (hv : 1 ≤ v) :
    ∀ p ∈ tableAdd m k v, 1 ≤ p.2 := by
  induction m with
  | nil =>
    intro p hp
    simp [tableAdd] at hp
    subst hp
    exact hv
  | cons q rest ih =>
    obtain ⟨k0, v0⟩ := q
    intro p hp
    by_cases hk : k0 = k
    · subst hk
      simp [tableAdd] at hp
      rcases hp with hp | hp
      · subst hp
        simp only
        omega
      · exact h p (List.mem_cons_of_mem _ hp)
    · simp [tableAdd, hk] at hp
      rcases hp with hp | hp
      · subst hp
        exact h _ (List.mem_cons_self _ _)
      · exact ih (fun q hq => h q (List.mem_cons_of_mem _ hq)) p hp

/-- A present key with all-positive values reads back positive. -/
lemma tableGetD_pos (m : Table) (k : String)
    (hvals : ∀ p ∈ m, 1 ≤ p.2) (hk : k ∈ tableKeys m) :
    1 ≤ tableGetD m k := by
  induction m with
  | nil => simp [tableKeys] at hk
  | cons q rest ih =>
    obtain ⟨k0, v0⟩ := q
    by_cases h : k0 = k
    · subst h
      simpa [tableGetD] using hvals (k0, v0) (List.mem_cons_self _ _)
    · simp only [tableGetD, if_neg h]
      refine ih (fun p hp => hvals p (List.mem_cons_of_mem _ hp)) ?_
      simpa [tableKeys, Ne.symm h] using hk

/-- One callback invocation either leaves both descriptor maps unchanged
(out-of-region object) or adds the object size and one instance under the
same descriptor key in the two maps. -/
lemma callback_maps (dumpSpace : Space) (st : Stats) (os : List String)
    (obj : HeapObject) (res : Stats × List String)
    (h : Callback dumpSpace st os obj = some res) :
    (res.1.descriptor_to_bytes = st.descriptor_to_bytes ∧
     res.1.descriptor_to_count = st.descriptor_to_count) ∨
    (res.1.descriptor_to_bytes =
       tableAdd st.descriptor_to_bytes obj.classDescriptor obj.sizeOf ∧
     res.1.descriptor_to_count =
       tableAdd st.descriptor_to_count obj.classDescriptor 1) := by
  by_cases hin : InDumpSpace dumpSpace obj = true
  · simp only [Callback, hin, Bool.not_eq_true] at h
    rw [if_neg (by simp)] at h
    cases hm : obj.asMethod with
    | none =>
      simp only [hm] at h
      injection h with h2
      subst h2
      exact Or.inr ⟨rfl, rfl⟩
    | some m =>
      simp only [hm] at h
      right
      cases hn : m.isNative <;> cases ha : m.isAbstract <;>
        cases hc : m.isCalleeSaveMethod <;>
          simp only [hn, ha, hc, Bool.false_eq_true, Bool.true_eq_false,
            if_true, if_false, ite_true, ite_false] at h
      all_goals
        split at h
      all_goals first
        | (injection h with h2
           subst h2
           exact ⟨rfl, rfl⟩)
        | injection h
  · simp only [Callback, hin, Bool.not_eq_true] at h
    rw [if_pos trivial] at h
    injection h with h2
    subst h2
    exact Or.inl ⟨rfl, rfl⟩



/-- The traversal preserves the alignment of the two descriptor maps:
equal key sets and counts of at least 1. -/
lemma walk_maps_inv (dumpSpace : Space) (objs : List HeapObject) :
    ∀ (st : Stats) (os : List String) (res : Stats × List String),
      tableKeys st.descriptor_to_bytes = tableKeys st.descriptor_to_count →
      (∀ p ∈ st.descriptor_to_count, 1 ≤ p.2) →
      walkObjects dumpSpace st os objs = some res →
      tableKeys res.1.descriptor_to_bytes = tableKeys res.1.descriptor_to_count ∧
      ∀ p ∈ res.1.descriptor_to_count, 1 ≤ p.2 := by
  induction objs with
  | nil =>
    intro st os res hkeys hvals hw
    simp only [walkObjects] at hw
    injection hw with h2
    subst h2
    exact ⟨hkeys, hvals⟩
  | cons obj rest ih =>
    intro st os res hkeys hvals hw
    simp only [walkObjects] at hw
    cases hc : Callback dumpSpace st os obj with
    | none => rw [hc] at hw; exact absurd hw (by simp)
    | some r =>
      rw [hc] at hw
      rcases callback_maps dumpSpace st os obj r hc with ⟨hb, hn⟩ | ⟨hb, hn⟩
      · exact ih r.1 r.2 res (by rw [hb, hn]; exact hkeys) (by rw [hn]; exact hvals) hw
      · refine ih r.1 r.2 res ?_ ?_ hw
        · rw [hb, hn, tableAdd_keys, tableAdd_keys, hkeys]
        · rw [hn]
          exact tableAdd_values _ _ _ hvals (by omega)

/-- C10: after any traversal prefix from a fresh accumulator,
`descriptor_to_bytes` and `descriptor_to_count` hold exactly the same key
set and every count is at least 1, so the per-descriptor bytes-per-instance
average in the renderer never divides by a zero count. -/
theorem descriptorMaps_aligned (dumpSpace : Space) (liveObjects : List HeapObject)
    (res : Stats × List String)
    (h : walkObjects dumpSpace Stats.init [] liveObjects = some res) :
    tableKeys res.1.descriptor_to_bytes = tableKeys res.1.descriptor_to_count ∧
    res.1.descriptor_to_count.all (fun p => decide (1 ≤ p.2)) = true ∧
    (tableKeys res.1.descriptor_to_bytes).all
      (fun k => decide (1 ≤ tableGetD res.1.descriptor_to_count k)) = true := by
  obtain ⟨hkeys, hvals⟩ := walk_maps_inv dumpSpace liveObjects Stats.init [] res rfl
    (by intro p hp; simp [Stats.init] at hp) h
  refine ⟨hkeys, ?_, ?_⟩
  · rw [List.all_eq_true]
    intro p hp
    simpa using hvals p hp
  · rw [List.all_eq_true]
    intro k hk
    simp only [decide_eq_true_eq]
    exact tableGetD_pos _ _ hvals (hkeys ▸ hk)

/-- Witness for C10 after visiting one concrete in-region object. -/
theorem descriptorMaps_aligned_witness :
    tableKeys plainRes.1.descriptor_to_bytes =
      tableKeys plainRes.1.descriptor_to_count ∧
    plainRes.1.descriptor_to_count.all (fun p => decide (1 ≤ p.2)) = true ∧
    (tableKeys plainRes.1.descriptor_to_bytes).all
      (fun k => decide (1 ≤ tableGetD plainRes.1.descriptor_to_count k)) = true :=
  descriptorMaps_aligned spX [plainObj] plainRes rfl


end Oatdump
